import Mathlib

/-!
Verification of the next-boil CLI (src/index.js) against its specification.

The embedding below is a shallow model of src/index.js, the latest and most
complete variant of the tool.  Pure string checks (the regexes of
validateInputs) become Lean boolean functions on strings; the filesystem,
the interactive prompt and the external subprocesses (degit, git, the
package manager) are modelled by an explicit environment of oracles, and the
command action becomes a pure function from that environment to an exit code
together with the ordered list of observable effects (events).
-/

deriving instance DecidableEq for Except

namespace NextBoil

/-- One character of the project-name character class `[a-zA-Z0-9-_]`
(src/index.js:52). -/
def isNameChar (c : Char) : Bool :=
  ('a' ≤ c && c ≤ 'z') || ('A' ≤ c && c ≤ 'Z') || ('0' ≤ c && c ≤ '9') ||
    c = '-' || c = '_'

/-- The test of the anchored regex `^[a-zA-Z0-9-_]+$` on a string
(src/index.js:52): one or more characters, all from the class. -/
def testNameRegex (s : String) : Bool :=
  !s.data.isEmpty && s.data.all isNameChar

/-- The JavaScript regex whitespace class `\s`: ASCII whitespace, NBSP,
the Unicode space separators, the line and paragraph separators and the
BOM. -/
def isJsWhitespace (c : Char) : Bool :=
  c = ' ' || c = '\t' || c = '\n' || c = '\r' ||
  c.toNat = 0x0b || c.toNat = 0x0c || c.toNat = 0xa0 || c.toNat = 0x1680 ||
  (0x2000 ≤ c.toNat && c.toNat ≤ 0x200a) ||
  c.toNat = 0x2028 || c.toNat = 0x2029 || c.toNat = 0x202f ||
  c.toNat = 0x205f || c.toNat = 0x3000 || c.toNat = 0xfeff

/-- The `[^\s]+` tail of the template-URL regex (src/index.js:62): at least
one character, none of them whitespace. -/
def urlTailOk (t : List Char) : Bool :=
  !t.isEmpty && t.all (fun c => !isJsWhitespace c)

/-- The scheme alternative `https?:\/\/` of the template-URL regex followed
by its `[^\s]+` tail, on the character list of the candidate string. -/
def matchScheme : List Char → Bool
  | 'h' :: 't' :: 't' :: 'p' :: 's' :: ':' :: '/' :: '/' :: t => urlTailOk t
  | 'h' :: 't' :: 't' :: 'p' :: ':' :: '/' :: '/' :: t => urlTailOk t
  | _ => false

/-- The test of the anchored regex `^(https?:\/\/[^\s]+)$` on a string
(src/index.js:62-63). -/
def testUrlRegex (s : String) : Bool :=
  matchScheme s.data

/-- The closed enumeration of supported package managers
(src/index.js:36). -/
def validManagers : List String := ["npm", "yarn", "pnpm"]

/-- The parsed command options of the single next-boil command
(src/index.js:130-138): the positional project name and the force,
template, base-dir, package-manager, git and debug options. -/
structure Options where
  projectName : String
  force : Bool
  template : String
  baseDir : String
  packageManager : String
  git : Bool
  debug : Bool
  deriving DecidableEq

/-- The error kinds a run can fail with.  The first four are the
validation errors of validateInputs (src/index.js:51-72), dirConflict is
the non-empty-directory error (src/index.js:152), and fetchFailed is the
underlying degit error rethrown after the retry budget is exhausted
(src/index.js:95), abstracted by a numeric cause identifier. -/
inductive RunError where
  | invalidName (name : String)
  | invalidPackageManager (manager : String)
  | invalidTemplate (template : String)
  | missingBaseDir (baseDir : String)
  | dirConflict (projectName : String)
  | fetchFailed (cause : Nat)
  deriving DecidableEq

/-- The four validation checks of validateInputs, in source order. -/
inductive Check where
  | nameCheck
  | managerCheck
  | templateCheck
  | baseDirCheck
  deriving DecidableEq

/-- The four checks in the order validateInputs performs them
(src/index.js:51-72). -/
def allChecks : List Check :=
  [Check.nameCheck, Check.managerCheck, Check.templateCheck, Check.baseDirCheck]

/-- validateInputs (src/index.js:51-72), instrumented with the list of
checks that actually execute.  A `throw` in the JavaScript body aborts the
function, so each check runs only when every earlier check passed; the
returned error is the thrown one, `none` meaning the function returned
normally.  `fsExists` models `fs.access` resolving for a path. -/
def validateInputsTrace (fsExists : String → Bool) (o : Options) :
    List Check × Option RunError :=
  if testNameRegex o.projectName = false then
    ([Check.nameCheck], some (RunError.invalidName o.projectName))
  else if validManagers.contains o.packageManager = false then
    ([Check.nameCheck, Check.managerCheck],
      some (RunError.invalidPackageManager o.packageManager))
  else if testUrlRegex o.template = false then
    ([Check.nameCheck, Check.managerCheck, Check.templateCheck],
      some (RunError.invalidTemplate o.template))
  else if fsExists o.baseDir = false then
    (allChecks, some (RunError.missingBaseDir o.baseDir))
  else
    (allChecks, none)

/-- The validation check a RunError originates from, if any. -/
def checkOfError : RunError → Option Check
  | RunError.invalidName _ => some Check.nameCheck
  | RunError.invalidPackageManager _ => some Check.managerCheck
  | RunError.invalidTemplate _ => some Check.templateCheck
  | RunError.missingBaseDir _ => some Check.baseDirCheck
  | RunError.dirConflict _ => none
  | RunError.fetchFailed _ => none

/-- isDirectoryEmpty (src/index.js:42-49): `listing` models `fs.readdir`,
`none` meaning the call rejected (path is not a listable directory); the
catch branch returns false in that case. -/
def isDirectoryEmpty (listing : String → Option (List String)) (dir : String) :
    Bool :=
  match listing dir with
  | some files => files.length == 0
  | none => false

/-- POSIX `path.isAbsolute` as used on project names (src/index.js:80):
the path starts with a slash. -/
def isAbsolutePath (p : String) : Bool :=
  match p.data with
  | c :: _ => c = '/'
  | [] => false

/-- Split a character list at every slash (the segment decomposition
underlying `path.resolve` normalization). -/
def splitSlash : List Char → List (List Char)
  | [] => [[]]
  | c :: cs =>
    let r := splitSlash cs
    if c = '/' then [] :: r
    else
      match r with
      | [] => [[c]]
      | s :: ss => (c :: s) :: ss

/-- The non-empty slash-separated segments of a path string. -/
def segsOf (p : String) : List (List Char) :=
  (splitSlash p.data).filter (fun s => !s.isEmpty)

/-- `path.resolve` normalization over an absolute path's segments: `.` is
dropped, `..` removes the previous segment (staying at the root when there
is none), other segments are kept in order. -/
def normalizeSegs (segs : List (List Char)) : List (List Char) :=
  segs.foldl
    (fun acc s =>
      if s = ['.'] then acc
      else if s = ['.', '.'] then acc.dropLast
      else acc ++ [s])
    []

/-- Render a normalized absolute segment list back into a path string. -/
def joinedString (segs : List (List Char)) : String :=
  "/" ++ String.intercalate "/" (segs.map (fun s => String.mk s))

/-- POSIX `path.resolve baseDir name` for a non-absolute `name`
(src/index.js:80): if `baseDir` is absolute the two are joined and
normalized, otherwise the process working directory `cwd` (assumed
absolute, as `process.cwd()` is) is prepended first. -/
def pathResolve (cwd base name : String) : String :=
  let combined :=
    if isAbsolutePath base then base ++ "/" ++ name
    else cwd ++ "/" ++ base ++ "/" ++ name
  joinedString (normalizeSegs (segsOf combined))

/-- resolveProjectPath (src/index.js:79-80): an absolute project name is
used verbatim and baseDir is ignored; otherwise the name is resolved
against baseDir.  `cwd` models `process.cwd()`, which `path.resolve`
consults when baseDir is relative. -/
def resolveProjectPath (cwd baseDir projectName : String) : String :=
  if isAbsolutePath projectName then projectName
  else pathResolve cwd baseDir projectName

/-- The resolved segment list of the base directory alone (against which a
relative project name is joined). -/
def resolvedBaseSegs (cwd base : String) : List (List Char) :=
  normalizeSegs (segsOf (if isAbsolutePath base then base else cwd ++ "/" ++ base))

/-- The observable effects of a run, in order: filesystem mutations
(recursive mkdir), the interactive confirmation prompt, the degit clone
attempts, the git and install subprocess invocations, and the logger and
spinner outputs that the claims refer to. -/
inductive Event where
  | mkdirRec (path : String)
  | promptConfirm (projectName : String)
  | cloneAttempt (attempt : Nat)
  | cloneFailure (retriesLeft : Nat)
  | cloneSuccess (path : String)
  | gitInitRun (path : String)
  | installRun (path : String) (manager : String)
  | logInfo (msg : String)
  | logSuccess (msg : String)
  | logWarn (msg : String)
  | logError (msg : String)
  | spinnerFail (msg : String)
  deriving DecidableEq

/-- Events that mutate the target filesystem or invoke a mutating
subprocess; prompts and log output are not mutations. -/
def isMutationEvent : Event → Bool
  | Event.mkdirRec _ => true
  | Event.cloneAttempt _ => true
  | Event.gitInitRun _ => true
  | Event.installRun _ _ => true
  | _ => false

/-- The error message printed for each RunError (the `err.message` the
catch block logs, src/index.js:191-198); the fetchFailed message stands
for the opaque degit error message. -/
def errorMessage : RunError → String
  | RunError.invalidName n =>
      "Invalid project name \"" ++ n ++
        "\". Only letters, numbers, dashes, and underscores are allowed."
  | RunError.invalidPackageManager m =>
      "Invalid package manager \"" ++ m ++ "\". Use one of: npm, yarn, pnpm"
  | RunError.invalidTemplate t =>
      "Invalid template URL: \"" ++ t ++ "\". Provide a valid URL."
  | RunError.missingBaseDir b =>
      "Base directory \"" ++ b ++ "\" does not exist."
  | RunError.dirConflict n =>
      "Directory \"" ++ n ++
        "\" already exists and is not empty. Use the --force flag to override."
  | RunError.fetchFailed c =>
      "degit clone failed (" ++ toString c ++ ")"

/-- The oracles a run consumes: `cwd` is `process.cwd()`; `fsExists p`
tells whether `fs.access p` resolves; `listing p` is the result of
`fs.readdir p` (`none` = rejection); `confirmAnswer` is the answer the
interactive confirmation would produce; `cloneErrors i` is the outcome of
the i-th degit clone attempt (`some cause` = rejection); `gitInitOk` and
`installOk` tell whether the git-init and install subprocesses exit
successfully. -/
structure Env where
  cwd : String
  fsExists : String → Bool
  listing : String → Option (List String)
  confirmAnswer : Bool
  cloneErrors : Nat → Option Nat
  gitInitOk : Bool
  installOk : Bool

/-- How the directory-reconciliation block of the action ends. -/
inductive ReconcileStatus where
  | proceed
  | conflict
  | declined
  deriving DecidableEq

/-- The directory-reconciliation block of the command action
(src/index.js:150-165): if the target exists, a non-empty target without
force throws the conflict error; otherwise with force set the destructive
confirmation is prompted, a declined answer logging the aborted message
and exiting; an absent target is created with a recursive mkdir. -/
def reconcile (env : Env) (o : Options) (projectPath : String) :
    List Event × ReconcileStatus :=
  if env.fsExists projectPath then
    if !o.force && !(isDirectoryEmpty env.listing projectPath) then
      ([], ReconcileStatus.conflict)
    else if o.force then
      if env.confirmAnswer then
        ([Event.promptConfirm o.projectName], ReconcileStatus.proceed)
      else
        ([Event.promptConfirm o.projectName, Event.logError "Operation aborted."],
          ReconcileStatus.declined)
    else
      ([], ReconcileStatus.proceed)
  else
    ([Event.mkdirRec projectPath], ReconcileStatus.proceed)

/-- The body of cloneRepo's while loop (src/index.js:82-99), by remaining
retries: with no retries left the loop exits and the function returns
undefined (`none`); otherwise one attempt is made, success returning true,
failure decrementing the counter and, when it reaches zero, logging the
failure message and rethrowing the last error. -/
def cloneRepoGo (cloneErrors : Nat → Option Nat) (projectPath : String) :
    Nat → Nat → List Event × Option (Except Nat Bool)
  | _, 0 => ([], none)
  | attempt, r + 1 =>
    match cloneErrors attempt with
    | none =>
        ([Event.cloneAttempt attempt, Event.cloneSuccess projectPath],
          some (Except.ok true))
    | some e =>
        if r = 0 then
          ([Event.cloneAttempt attempt, Event.cloneFailure 0,
            Event.logError
              "Failed to clone the repository. Check the template URL or your internet connection."],
            some (Except.error e))
        else
          let rest := cloneRepoGo cloneErrors projectPath (attempt + 1) r
          (Event.cloneAttempt attempt :: Event.cloneFailure r :: rest.1, rest.2)

/-- cloneRepo (src/index.js:82-99) starting at the first attempt. -/
def cloneRepo (cloneErrors : Nat → Option Nat) (projectPath : String)
    (retries : Nat) : List Event × Option (Except Nat Bool) :=
  cloneRepoGo cloneErrors projectPath 0 retries

/-- initializeGit (src/index.js:101-111): runs `git init` in the project
path; failure is caught, logged as a warning and reported by the false
return value. -/
def initGitRepo (gitInitOk : Bool) (projectPath : String) : List Event × Bool :=
  if gitInitOk then
    ([Event.logInfo "Initializing git repository...",
      Event.gitInitRun projectPath,
      Event.logSuccess "Git repository initialized successfully."], true)
  else
    ([Event.logInfo "Initializing git repository...",
      Event.gitInitRun projectPath,
      Event.logWarn "Git initialization failed. You may need to initialize git manually."],
      false)

/-- installDependencies (src/index.js:113-125): re-validates the package
manager (throwing on an invalid one), then runs the install subprocess,
reporting its success by the boolean. -/
def installDependencies (installOk : Bool) (projectPath manager : String) :
    List Event × Except RunError Bool :=
  if validManagers.contains manager = false then
    ([], Except.error (RunError.invalidPackageManager manager))
  else if installOk then
    ([Event.installRun projectPath manager], Except.ok true)
  else
    ([Event.installRun projectPath manager], Except.ok false)

/-- The outcome of a whole run: the process exit status and the ordered
observable events. -/
structure RunResult where
  exitCode : Nat
  events : List Event
  deriving DecidableEq

/-- The tail of the command action after reconciliation decided to proceed
(src/index.js:167-190): the retried clone, whose final error is caught by
the action's catch block; then optional git initialization; then
dependency installation, whose failure logs the incomplete-setup error and
exits 1, and whose success ends the run with the summary and exit 0. -/
def runPostReconcile (env : Env) (o : Options) (projectPath : String) :
    RunResult :=
  let clone := cloneRepo env.cloneErrors projectPath 3
  match clone.2 with
  | some (Except.error e) =>
      ⟨1, clone.1 ++ [Event.spinnerFail "Project setup failed.",
        Event.logError (errorMessage (RunError.fetchFailed e))]⟩
  | _ =>
    let gitEvs := if o.git then (initGitRepo env.gitInitOk projectPath).1 else []
    let inst := installDependencies env.installOk projectPath o.packageManager
    match inst.2 with
    | Except.error e =>
        ⟨1, clone.1 ++ gitEvs ++ inst.1 ++
          [Event.spinnerFail "Project setup failed.",
            Event.logError (errorMessage e)]⟩
    | Except.ok installed =>
      if installed then
        ⟨0, clone.1 ++ gitEvs ++ inst.1 ++
          [Event.logSuccess "Project setup completed successfully!"]⟩
      else
        ⟨1, clone.1 ++ gitEvs ++ inst.1 ++
          [Event.logError "Project setup incomplete due to dependency installation failure."]⟩

/-- The whole command action (src/index.js:137-199): path resolution,
validation (whose thrown errors the catch block logs before exiting 1),
the redundant repeated project-name check (src/index.js:146-148), the
directory-reconciliation block — a conflict throwing to the catch block, a
declined confirmation logging the aborted message and exiting 1 directly —
and then the post-reconciliation pipeline. -/
def runAction (env : Env) (o : Options) : RunResult :=
  let projectPath := resolveProjectPath env.cwd o.baseDir o.projectName
  match (validateInputsTrace env.fsExists o).2 with
  | some e =>
      ⟨1, [Event.spinnerFail "Project setup failed.",
        Event.logError (errorMessage e)]⟩
  | none =>
    if testNameRegex o.projectName = false then
      ⟨1, [Event.spinnerFail "Project setup failed.",
        Event.logError (errorMessage (RunError.invalidName o.projectName))]⟩
    else
      let recon := reconcile env o projectPath
      match recon.2 with
      | ReconcileStatus.conflict =>
          ⟨1, recon.1 ++ [Event.spinnerFail "Project setup failed.",
            Event.logError (errorMessage (RunError.dirConflict o.projectName))]⟩
      | ReconcileStatus.declined => ⟨1, recon.1⟩
      | ReconcileStatus.proceed =>
        let post := runPostReconcile env o projectPath
        ⟨post.exitCode, recon.1 ++ post.events⟩

/-- The run passes input validation: validateInputs returns normally. -/
def validationPasses (env : Env) (o : Options) : Prop :=
  (validateInputsTrace env.fsExists o).2 = none

instance decValidationPasses (env : Env) (o : Options) :
    Decidable (validationPasses env o) :=
  inferInstanceAs (Decidable ((validateInputsTrace env.fsExists o).2 = none))

/-- A fixed environment used for concrete evaluations: the base directory
exists, the target directory exists and is empty, the confirmation is
declined, and all external operations succeed. -/
def envEmptyDeclined : Env where
  cwd := "/home"
  fsExists := fun p => p = "/base" || p = "/base/app"
  listing := fun p => if p = "/base/app" then some [] else none
  confirmAnswer := false
  cloneErrors := fun _ => none
  gitInitOk := true
  installOk := true

/-- The same environment but with an existing non-empty target. -/
def envNonEmptyDeclined : Env where
  cwd := "/home"
  fsExists := fun p => p = "/base" || p = "/base/app"
  listing := fun p => if p = "/base/app" then some ["f.txt"] else none
  confirmAnswer := false
  cloneErrors := fun _ => none
  gitInitOk := true
  installOk := true

/-- Validation-passing options naming the target of the fixed
environments, with force set. -/
def optsForce : Options where
  projectName := "app"
  force := true
  template := "https://github.com/boddhi9/next-template"
  baseDir := "/base"
  packageManager := "npm"
  git := true
  debug := false

/-- The same options with force unset. -/
def optsNoForce : Options where
  projectName := "app"
  force := false
  template := "https://github.com/boddhi9/next-template"
  baseDir := "/base"
  packageManager := "npm"
  git := true
  debug := false

theorem testNameRegex_iff (s : String) :
    testNameRegex s = true ↔ s.data ≠ [] ∧ ∀ c ∈ s.data, isNameChar c = true := by
  simp [testNameRegex, List.isEmpty_iff, List.all_eq_true]

theorem validate_invalidName_iff (fs : String → Bool) (o : Options) :
    (validateInputsTrace fs o).2 = some (RunError.invalidName o.projectName) ↔
      testNameRegex o.projectName = false := by
  unfold validateInputsTrace
  split
  · rename_i h; simp [h]
  · split
    · rename_i h _; simp at h ⊢; simpa using h
    · split
      · rename_i h _ _; simp at h ⊢; simpa using h
      · split
        · rename_i h _ _ _; simp at h ⊢; simpa using h
        · rename_i h _ _ _; simp at h ⊢; simpa using h

theorem validationPasses_parts (env : Env) (o : Options)
    (h : validationPasses env o) :
    testNameRegex o.projectName = true ∧
      validManagers.contains o.packageManager = true ∧
      testUrlRegex o.template = true ∧ env.fsExists o.baseDir = true := by
  unfold validationPasses validateInputsTrace at h
  split at h
  · simp at h
  · split at h
    · simp at h
    · split at h
      · simp at h
      · split at h
        · simp at h
        · rename_i h1 h2 h3 h4
          simp at h1 h2 h3 h4
          exact ⟨h1, by simpa using h2, h3, h4⟩

theorem reconcile_absent (env : Env) (o : Options) (p : String)
    (h : env.fsExists p = false) :
    reconcile env o p = ([Event.mkdirRec p], ReconcileStatus.proceed) := by
  unfold reconcile
  rw [h]
  simp

theorem reconcile_empty_noforce (env : Env) (o : Options) (p : String)
    (h1 : env.fsExists p = true) (h2 : o.force = false)
    (h3 : isDirectoryEmpty env.listing p = true) :
    reconcile env o p = ([], ReconcileStatus.proceed) := by
  unfold reconcile
  rw [h1, h2, h3]
  simp

theorem reconcile_nonempty_noforce (env : Env) (o : Options) (p : String)
    (h1 : env.fsExists p = true) (h2 : o.force = false)
    (h3 : isDirectoryEmpty env.listing p = false) :
    reconcile env o p = ([], ReconcileStatus.conflict) := by
  unfold reconcile
  rw [h1, h2, h3]
  simp

theorem reconcile_force_confirmed (env : Env) (o : Options) (p : String)
    (h1 : env.fsExists p = true) (h2 : o.force = true)
    (h3 : env.confirmAnswer = true) :
    reconcile env o p =
      ([Event.promptConfirm o.projectName], ReconcileStatus.proceed) := by
  unfold reconcile
  rw [h1, h2, h3]
  simp

theorem reconcile_force_declined (env : Env) (o : Options) (p : String)
    (h1 : env.fsExists p = true) (h2 : o.force = true)
    (h3 : env.confirmAnswer = false) :
    reconcile env o p =
      ([Event.promptConfirm o.projectName, Event.logError "Operation aborted."],
        ReconcileStatus.declined) := by
  unfold reconcile
  rw [h1, h2, h3]
  simp

theorem runAction_conflict (env : Env) (o : Options)
    (hv : validationPasses env o)
    (hr : (reconcile env o (resolveProjectPath env.cwd o.baseDir o.projectName)).2 =
      ReconcileStatus.conflict) :
    runAction env o =
      ⟨1, (reconcile env o (resolveProjectPath env.cwd o.baseDir o.projectName)).1 ++
        [Event.spinnerFail "Project setup failed.",
          Event.logError (errorMessage (RunError.dirConflict o.projectName))]⟩ := by
  have hname := (validationPasses_parts env o hv).1
  unfold validationPasses at hv
  unfold runAction
  rw [hv, hname]
  simp [hr]

theorem runAction_declined (env : Env) (o : Options)
    (hv : validationPasses env o)
    (hr : (reconcile env o (resolveProjectPath env.cwd o.baseDir o.projectName)).2 =
      ReconcileStatus.declined) :
    runAction env o =
      ⟨1, (reconcile env o (resolveProjectPath env.cwd o.baseDir o.projectName)).1⟩ := by
  have hname := (validationPasses_parts env o hv).1
  unfold validationPasses at hv
  unfold runAction
  rw [hv, hname]
  simp [hr]

theorem runAction_proceed (env : Env) (o : Options)
    (hv : validationPasses env o)
    (hr : (reconcile env o (resolveProjectPath env.cwd o.baseDir o.projectName)).2 =
      ReconcileStatus.proceed) :
    runAction env o =
      ⟨(runPostReconcile env o (resolveProjectPath env.cwd o.baseDir o.projectName)).exitCode,
        (reconcile env o (resolveProjectPath env.cwd o.baseDir o.projectName)).1 ++
          (runPostReconcile env o (resolveProjectPath env.cwd o.baseDir o.projectName)).events⟩ := by
  have hname := (validationPasses_parts env o hv).1
  unfold validationPasses at hv
  unfold runAction
  rw [hv, hname]
  simp [hr]

/-- C2 counterexample: for an existing empty target with force set and the
confirmation declined, the Reconciler does not proceed (it terminates the
run), refuting the unconditional "exists and empty implies proceed" case
of the claim. -/
theorem claim_C2_counterexample :
    envEmptyDeclined.fsExists
        (resolveProjectPath envEmptyDeclined.cwd optsForce.baseDir optsForce.projectName) = true ∧
    isDirectoryEmpty envEmptyDeclined.listing
        (resolveProjectPath envEmptyDeclined.cwd optsForce.baseDir optsForce.projectName) = true ∧
    (reconcile envEmptyDeclined optsForce
        (resolveProjectPath envEmptyDeclined.cwd optsForce.baseDir optsForce.projectName)).2 ≠
      ReconcileStatus.proceed := by
  decide

/-- C2 (amended): for every resolved target path, an absent path is created
recursively and the run proceeds; an existing empty path with force unset
proceeds without any filesystem mutation; an existing non-empty path with
force unset yields the directory-conflict error, a failed run (exit 1) and
no filesystem mutation.  (With force set, an existing path — empty or not —
goes through the forced-confirmation flow instead.) -/
theorem claim_C2 (env : Env) (o : Options) :
    (env.fsExists (resolveProjectPath env.cwd o.baseDir o.projectName) = false →
      reconcile env o (resolveProjectPath env.cwd o.baseDir o.projectName) =
        ([Event.mkdirRec (resolveProjectPath env.cwd o.baseDir o.projectName)],
          ReconcileStatus.proceed)) ∧
    (env.fsExists (resolveProjectPath env.cwd o.baseDir o.projectName) = true →
      isDirectoryEmpty env.listing (resolveProjectPath env.cwd o.baseDir o.projectName) = true →
      o.force = false →
      reconcile env o (resolveProjectPath env.cwd o.baseDir o.projectName) =
        ([], ReconcileStatus.proceed)) ∧
    (env.fsExists (resolveProjectPath env.cwd o.baseDir o.projectName) = true →
      isDirectoryEmpty env.listing (resolveProjectPath env.cwd o.baseDir o.projectName) = false →
      o.force = false →
      reconcile env o (resolveProjectPath env.cwd o.baseDir o.projectName) =
        ([], ReconcileStatus.conflict) ∧
      (validationPasses env o →
        (runAction env o).exitCode = 1 ∧
        Event.logError (errorMessage (RunError.dirConflict o.projectName)) ∈
          (runAction env o).events ∧
        (runAction env o).events.all (fun e => !isMutationEvent e) = true)) := by
  refine ⟨fun h => reconcile_absent env o _ h,
    fun h1 h3 h2 => reconcile_empty_noforce env o _ h1 h2 h3,
    fun h1 h3 h2 => ⟨reconcile_nonempty_noforce env o _ h1 h2 h3, fun hv => ?_⟩⟩
  have hc : (reconcile env o (resolveProjectPath env.cwd o.baseDir o.projectName)).2 =
      ReconcileStatus.conflict := by
    rw [reconcile_nonempty_noforce env o _ h1 h2 h3]
  rw [runAction_conflict env o hv hc, reconcile_nonempty_noforce env o _ h1 h2 h3]
  simp [isMutationEvent]

/-- C2 witness: the amended theorem applied to a concrete environment with
an existing non-empty target and force unset. -/
theorem claim_C2_witness :
    reconcile envNonEmptyDeclined optsNoForce
        (resolveProjectPath envNonEmptyDeclined.cwd optsNoForce.baseDir optsNoForce.projectName) =
      ([], ReconcileStatus.conflict) ∧
    (runAction envNonEmptyDeclined optsNoForce).exitCode = 1 := by
  have h := (claim_C2 envNonEmptyDeclined optsNoForce).2.2 (by decide) (by decide) (by decide)
  exact ⟨h.1, (h.2 (by decide)).1⟩

/-- C3 counterexample: for an existing empty directory with force set, the
confirmation prompt does occur, refuting "for an existing empty directory
(with or without force) no confirmation prompt occurs". -/
theorem claim_C3_counterexample :
    isDirectoryEmpty envEmptyDeclined.listing
        (resolveProjectPath envEmptyDeclined.cwd optsForce.baseDir optsForce.projectName) = true ∧
    Event.promptConfirm "app" ∈
      (reconcile envEmptyDeclined optsForce
        (resolveProjectPath envEmptyDeclined.cwd optsForce.baseDir optsForce.projectName)).1 := by
  decide

/-- C3 (amended): the interactive destructive-action confirmation is
requested exactly when the target path exists and force is true — the
emptiness of the existing target plays no role in whether the prompt
occurs. -/
theorem claim_C3 (env : Env) (o : Options) (p : String) :
    Event.promptConfirm o.projectName ∈ (reconcile env o p).1 ↔
      env.fsExists p = true ∧ o.force = true := by
  cases hf : env.fsExists p <;> cases hfo : o.force <;>
    cases hc : env.confirmAnswer <;>
    cases he : isDirectoryEmpty env.listing p <;>
    simp [reconcile, hf, hfo, hc, he]

/-- C3 witness: the amended theorem evaluated on a concrete environment
with an existing empty target and force set. -/
theorem claim_C3_witness :
    Event.promptConfirm optsForce.projectName ∈
      (reconcile envEmptyDeclined optsForce "/base/app").1 :=
  (claim_C3 envEmptyDeclined optsForce "/base/app").mpr (by decide)

/-- C4 counterexample: on a declined forced-overwrite confirmation the run
does exit 1 before any fetch, but the "Operation aborted." outcome is
emitted through the error logger, refuting "reported as a neutral
informational message, not logged as an error". -/
theorem claim_C4_counterexample :
    (runAction envNonEmptyDeclined optsForce).exitCode = 1 ∧
    (runAction envNonEmptyDeclined optsForce).events =
      [Event.promptConfirm "app", Event.logError "Operation aborted."] ∧
    Event.logError "Operation aborted." ∈ (runAction envNonEmptyDeclined optsForce).events := by
  decide

/-- C4 (amended): when the forced-overwrite confirmation is declined, the
run terminates before any fetch (no clone attempt), performs no filesystem
mutation (so no existing file is deleted), exits with status 1, and the
"Operation aborted." outcome is reported through the error logger. -/
theorem claim_C4 (env : Env) (o : Options)
    (hv : validationPasses env o)
    (h1 : env.fsExists (resolveProjectPath env.cwd o.baseDir o.projectName) = true)
    (h2 : o.force = true) (h3 : env.confirmAnswer = false) :
    (runAction env o).exitCode = 1 ∧
    (∀ i, Event.cloneAttempt i ∉ (runAction env o).events) ∧
    (runAction env o).events.all (fun e => !isMutationEvent e) = true ∧
    Event.logError "Operation aborted." ∈ (runAction env o).events := by
  have hrec := reconcile_force_declined env o
    (resolveProjectPath env.cwd o.baseDir o.projectName) h1 h2 h3
  have hd : (reconcile env o (resolveProjectPath env.cwd o.baseDir o.projectName)).2 =
      ReconcileStatus.declined := by rw [hrec]
  rw [runAction_declined env o hv hd, hrec]
  simp [isMutationEvent]

/-- C4 witness: the amended theorem applied to a concrete declined run. -/
theorem claim_C4_witness :
    (runAction envNonEmptyDeclined optsForce).exitCode = 1 ∧
    Event.logError "Operation aborted." ∈ (runAction envNonEmptyDeclined optsForce).events := by
  have h := claim_C4 envNonEmptyDeclined optsForce (by decide) (by decide) (by decide) (by decide)
  exact ⟨h.1, h.2.2.2⟩

/-- C5 counterexample: with an invalid project name and an invalid package
manager together, only the name check runs — the package-manager check is
prevented from running — refuting "no failing check prevents the others
from running". -/
theorem claim_C5_counterexample :
    validManagers.contains
        ({ optsNoForce with projectName := "bad name", packageManager := "bogus" } : Options).packageManager = false ∧
    (validateInputsTrace (fun _ => true)
        { optsNoForce with projectName := "bad name", packageManager := "bogus" }).1 =
      [Check.nameCheck] ∧
    Check.managerCheck ∉
      (validateInputsTrace (fun _ => true)
        { optsNoForce with projectName := "bad name", packageManager := "bogus" }).1 := by
  decide

/-- C5 (amended): the four validation checks run sequentially in a fixed
order and short-circuit — the executed checks always form a non-empty
initial run of the four, all four execute exactly when validation
succeeds, and the reported failure is the last (hence first failing) check
executed. -/
theorem claim_C5 (fs : String → Bool) (o : Options) :
    (∃ k, 1 ≤ k ∧ k ≤ 4 ∧ (validateInputsTrace fs o).1 = allChecks.take k) ∧
    ((validateInputsTrace fs o).2 = none → (validateInputsTrace fs o).1 = allChecks) ∧
    (∀ e, (validateInputsTrace fs o).2 = some e →
      checkOfError e = (validateInputsTrace fs o).1.getLast?) := by
  unfold validateInputsTrace
  split
  · exact ⟨⟨1, by decide, by decide, by simp [allChecks]⟩, by simp,
      fun e he => by simp at he; rw [← he]; rfl⟩
  · split
    · exact ⟨⟨2, by decide, by decide, by simp [allChecks]⟩, by simp,
        fun e he => by simp at he; rw [← he]; rfl⟩
    · split
      · exact ⟨⟨3, by decide, by decide, by simp [allChecks]⟩, by simp,
          fun e he => by simp at he; rw [← he]; rfl⟩
      · split
        · exact ⟨⟨4, by decide, by decide, by simp [allChecks]⟩, by simp,
            fun e he => by simp at he; rw [← he]; rfl⟩
        · exact ⟨⟨4, by decide, by decide, by simp [allChecks]⟩, by simp,
            fun e he => by simp at he⟩

/-- C5 witness: the amended theorem evaluated on a concrete request whose
package manager is invalid: checks stop at the manager check and the
reported failure is that check. -/
theorem claim_C5_witness :
    (∃ k, 1 ≤ k ∧ k ≤ 4 ∧
      (validateInputsTrace (fun _ => true)
        { optsNoForce with packageManager := "bogus" }).1 = allChecks.take k) ∧
    checkOfError (RunError.invalidPackageManager "bogus") =
      (validateInputsTrace (fun _ => true)
        { optsNoForce with packageManager := "bogus" }).1.getLast? := by
  have h := claim_C5 (fun _ => true) { optsNoForce with packageManager := "bogus" }
  exact ⟨h.1, h.2.2 (RunError.invalidPackageManager "bogus") (by decide)⟩

/-- C6 (confirmed): project-name validation fails with the invalid-name
error exactly when the name is empty or contains a character outside
letters, digits, dash and underscore; slash, space and at-sign are outside
the class. -/
theorem claim_C6 (fs : String → Bool) (o : Options) :
    ((validateInputsTrace fs o).2 = some (RunError.invalidName o.projectName) ↔
      ¬(o.projectName.data ≠ [] ∧ ∀ c ∈ o.projectName.data, isNameChar c = true)) ∧
    isNameChar '/' = false ∧ isNameChar ' ' = false ∧ isNameChar '@' = false := by
  refine ⟨?_, by decide, by decide, by decide⟩
  rw [validate_invalidName_iff, ← testNameRegex_iff o.projectName]
  simp

/-- C6 witness: the characterization evaluated on a concrete request whose
project name contains a slash, which is rejected. -/
theorem claim_C6_witness :
    (validateInputsTrace (fun _ => true)
      { optsNoForce with projectName := "a/b" }).2 =
      some (RunError.invalidName "a/b") := by
  have h := (claim_C6 (fun _ => true) { optsNoForce with projectName := "a/b" }).1
  exact h.mpr (by decide)

/-- C10 (confirmed): isDirectoryEmpty returns false whenever the listing
fails, so an existing but unlistable target (a regular file, an unreadable
directory) is classified non-empty, and without force the run aborts with
the directory-conflict error and performs no mutation. -/
theorem claim_C10 (env : Env) (o : Options) :
    (∀ d, env.listing d = none → isDirectoryEmpty env.listing d = false) ∧
    (validationPasses env o →
      env.fsExists (resolveProjectPath env.cwd o.baseDir o.projectName) = true →
      env.listing (resolveProjectPath env.cwd o.baseDir o.projectName) = none →
      o.force = false →
      (runAction env o).exitCode = 1 ∧
      Event.logError (errorMessage (RunError.dirConflict o.projectName)) ∈
        (runAction env o).events ∧
      (runAction env o).events.all (fun e => !isMutationEvent e) = true) := by
  constructor
  · intro d h
    unfold isDirectoryEmpty
    rw [h]
  · intro hv h1 hl h2
    have h3 : isDirectoryEmpty env.listing
        (resolveProjectPath env.cwd o.baseDir o.projectName) = false := by
      unfold isDirectoryEmpty
      rw [hl]
    have hc : (reconcile env o (resolveProjectPath env.cwd o.baseDir o.projectName)).2 =
        ReconcileStatus.conflict := by
      rw [reconcile_nonempty_noforce env o _ h1 h2 h3]
    rw [runAction_conflict env o hv hc, reconcile_nonempty_noforce env o _ h1 h2 h3]
    simp [isMutationEvent]

theorem matchScheme_iff (l : List Char) :
    matchScheme l = true ↔
      ∃ t, (l = "http://".data ++ t ∨ l = "https://".data ++ t) ∧ t ≠ [] ∧
        ∀ c ∈ t, isJsWhitespace c = false := by
  rw [show "http://".data = ['h', 't', 't', 'p', ':', '/', '/'] from rfl,
    show "https://".data = ['h', 't', 't', 'p', 's', ':', '/', '/'] from rfl]
  unfold matchScheme
  split
  · rename_i t
    simp only [urlTailOk, Bool.and_eq_true, Bool.not_eq_true', List.isEmpty_eq_false,
      List.all_eq_true, Bool.not_eq_true]
    constructor
    · rintro ⟨hne, hall⟩
      exact ⟨t, Or.inr (by simp), hne, hall⟩
    · rintro ⟨t2, hor, hne, hall⟩
      rcases hor with h | h
      · simp at h
      · simp at h
        obtain ⟨rfl⟩ := h
        exact ⟨hne, hall⟩
  · rename_i t
    simp only [urlTailOk, Bool.and_eq_true, Bool.not_eq_true', List.isEmpty_eq_false,
      List.all_eq_true, Bool.not_eq_true]
    constructor
    · rintro ⟨hne, hall⟩
      exact ⟨t, Or.inl (by simp), hne, hall⟩
    · rintro ⟨t2, hor, hne, hall⟩
      rcases hor with h | h
      · simp at h
        obtain ⟨rfl⟩ := h
        exact ⟨hne, hall⟩
      · simp at h
  · rename_i h1 h2
    constructor
    · intro h
      simp at h
    · rintro ⟨t, (h | h), hne, hall⟩
      · exact ((h2 t (by simpa using h)) : False).elim
      · exact ((h1 t (by simpa using h)) : False).elim

/-- C7 (confirmed): template-URL validation accepts a string exactly when
it is the scheme `http://` or `https://` followed by at least one more
character and the whole string contains no whitespace; it accepts the
GitHub example and rejects `not-a-url` and `ftp://host/path`. -/
theorem claim_C7 (s : String) :
    (testUrlRegex s = true ↔
      ∃ t, (s.data = "http://".data ++ t ∨ s.data = "https://".data ++ t) ∧
        t ≠ [] ∧ ∀ c ∈ s.data, isJsWhitespace c = false) ∧
    testUrlRegex "https://github.com/org/repo" = true ∧
    testUrlRegex "not-a-url" = false ∧
    testUrlRegex "ftp://host/path" = false := by
  refine ⟨?_, by decide, by decide, by decide⟩
  rw [show testUrlRegex s = matchScheme s.data from rfl, matchScheme_iff]
  constructor
  · rintro ⟨t, hor, hne, hall⟩
    refine ⟨t, hor, hne, ?_⟩
    intro c hc
    rcases hor with h | h <;> rw [h] at hc <;> simp only [List.mem_append] at hc
    · rcases hc with hc | hc
      · exact (by decide : ∀ c ∈ "http://".data, isJsWhitespace c = false) c hc
      · exact hall c hc
    · rcases hc with hc | hc
      · exact (by decide : ∀ c ∈ "https://".data, isJsWhitespace c = false) c hc
      · exact hall c hc
  · rintro ⟨t, hor, hne, hall⟩
    refine ⟨t, hor, hne, fun c hc => hall c ?_⟩
    rcases hor with h | h <;> rw [h] <;> simp [hc]

/-- C7 witness: the characterization applied at the concrete example
strings of the claim. -/
theorem claim_C7_witness :
    testUrlRegex "https://github.com/org/repo" = true ∧
    testUrlRegex "ftp://host/path" = false :=
  ⟨(claim_C7 "https://github.com/org/repo").2.1,
    (claim_C7 "ftp://host/path").2.2.2⟩

theorem cloneRepoGo_snd_ok (errs : Nat → Option Nat) (p : String) (i r : Nat)
    (h : errs i = none) :
    (cloneRepoGo errs p i (r + 1)).2 = some (Except.ok true) := by
  unfold cloneRepoGo
  rw [h]

theorem cloneRepoGo_snd_last (errs : Nat → Option Nat) (p : String) (i e : Nat)
    (h : errs i = some e) :
    (cloneRepoGo errs p i (0 + 1)).2 = some (Except.error e) := by
  unfold cloneRepoGo
  rw [h]
  simp

theorem cloneRepoGo_snd_step (errs : Nat → Option Nat) (p : String) (i r e : Nat)
    (h : errs i = some e) (hr : r ≠ 0) :
    (cloneRepoGo errs p i (r + 1)).2 = (cloneRepoGo errs p (i + 1) r).2 := by
  conv_lhs => rw [cloneRepoGo.eq_def]
  simp [h, hr]

theorem cloneRepoGo_attempt_lt (errs : Nat → Option Nat) (p : String) (j : Nat) :
    ∀ r i, Event.cloneAttempt j ∈ (cloneRepoGo errs p i r).1 → j < i + r := by
  intro r
  induction r with
  | zero =>
    intro i h
    simp [cloneRepoGo] at h
  | succ r ih =>
    intro i h
    unfold cloneRepoGo at h
    cases he : errs i with
    | none =>
      rw [he] at h
      simp at h
      omega
    | some e =>
      rw [he] at h
      by_cases hr : r = 0
      · subst hr
        simp at h
        omega
      · simp [hr] at h
        rcases h with h | h
        · omega
        · have := ih (i + 1) h
          omega

theorem runPostReconcile_fetchErr (env : Env) (o : Options) (p : String) (e : Nat)
    (h : (cloneRepo env.cloneErrors p 3).2 = some (Except.error e)) :
    (runPostReconcile env o p).exitCode = 1 := by
  simp [runPostReconcile, h]

theorem runPostReconcile_ok (env : Env) (o : Options) (p : String)
    (h : (cloneRepo env.cloneErrors p 3).2 = some (Except.ok true))
    (hpm : validManagers.contains o.packageManager = true) :
    runPostReconcile env o p =
      ⟨if env.installOk then 0 else 1,
        (cloneRepo env.cloneErrors p 3).1 ++
          (if o.git then (initGitRepo env.gitInitOk p).1 else []) ++
          ([Event.installRun p o.packageManager] ++
            (if env.installOk then
              [Event.logSuccess "Project setup completed successfully!"]
             else
              [Event.logError "Project setup incomplete due to dependency installation failure."]))⟩ := by
  have hpm2 : o.packageManager ∈ validManagers := by simpa using hpm
  cases hi : env.installOk <;>
    simp [runPostReconcile, installDependencies, h, hpm, hpm2, hi]

/-- C1 (confirmed): the Fetcher performs at most 3 clone attempts; when all
three fail it surfaces the final underlying error and the run exits 1; when
the third attempt succeeds after two failures the fetch reports success and
the run continues (exiting 0 when installation succeeds). -/
theorem claim_C1 (env : Env) (o : Options)
    (hv : validationPasses env o)
    (hr : (reconcile env o (resolveProjectPath env.cwd o.baseDir o.projectName)).2 =
      ReconcileStatus.proceed) :
    (∀ (errs : Nat → Option Nat) (p : String) (i : Nat),
      Event.cloneAttempt i ∈ (cloneRepo errs p 3).1 → i < 3) ∧
    (∀ e0 e1 e2, env.cloneErrors 0 = some e0 → env.cloneErrors 1 = some e1 →
      env.cloneErrors 2 = some e2 →
      (cloneRepo env.cloneErrors (resolveProjectPath env.cwd o.baseDir o.projectName) 3).2 =
        some (Except.error e2) ∧
      (runAction env o).exitCode = 1) ∧
    (∀ e0 e1, env.cloneErrors 0 = some e0 → env.cloneErrors 1 = some e1 →
      env.cloneErrors 2 = none →
      (cloneRepo env.cloneErrors (resolveProjectPath env.cwd o.baseDir o.projectName) 3).2 =
        some (Except.ok true) ∧
      (env.installOk = true → (runAction env o).exitCode = 0)) := by
  have hpm := (validationPasses_parts env o hv).2.1
  refine ⟨?_, ?_, ?_⟩
  · intro errs p i h
    have := cloneRepoGo_attempt_lt errs p i 3 0 h
    omega
  · intro e0 e1 e2 h0 h1 h2
    have s1 : (cloneRepoGo env.cloneErrors
        (resolveProjectPath env.cwd o.baseDir o.projectName) 0 3).2 =
        (cloneRepoGo env.cloneErrors
          (resolveProjectPath env.cwd o.baseDir o.projectName) 1 2).2 :=
      cloneRepoGo_snd_step env.cloneErrors _ 0 2 e0 h0 (by decide)
    have s2 : (cloneRepoGo env.cloneErrors
        (resolveProjectPath env.cwd o.baseDir o.projectName) 1 2).2 =
        (cloneRepoGo env.cloneErrors
          (resolveProjectPath env.cwd o.baseDir o.projectName) 2 1).2 :=
      cloneRepoGo_snd_step env.cloneErrors _ 1 1 e1 h1 (by decide)
    have s3 : (cloneRepoGo env.cloneErrors
        (resolveProjectPath env.cwd o.baseDir o.projectName) 2 1).2 =
        some (Except.error e2) :=
      cloneRepoGo_snd_last env.cloneErrors _ 2 e2 h2
    have hsnd : (cloneRepo env.cloneErrors
        (resolveProjectPath env.cwd o.baseDir o.projectName) 3).2 =
        some (Except.error e2) := by
      unfold cloneRepo
      rw [s1, s2, s3]
    refine ⟨hsnd, ?_⟩
    rw [runAction_proceed env o hv hr]
    exact runPostReconcile_fetchErr env o _ e2 hsnd
  · intro e0 e1 h0 h1 h2
    have s1 : (cloneRepoGo env.cloneErrors
        (resolveProjectPath env.cwd o.baseDir o.projectName) 0 3).2 =
        (cloneRepoGo env.cloneErrors
          (resolveProjectPath env.cwd o.baseDir o.projectName) 1 2).2 :=
      cloneRepoGo_snd_step env.cloneErrors _ 0 2 e0 h0 (by decide)
    have s2 : (cloneRepoGo env.cloneErrors
        (resolveProjectPath env.cwd o.baseDir o.projectName) 1 2).2 =
        (cloneRepoGo env.cloneErrors
          (resolveProjectPath env.cwd o.baseDir o.projectName) 2 1).2 :=
      cloneRepoGo_snd_step env.cloneErrors _ 1 1 e1 h1 (by decide)
    have s3 : (cloneRepoGo env.cloneErrors
        (resolveProjectPath env.cwd o.baseDir o.projectName) 2 1).2 =
        some (Except.ok true) :=
      cloneRepoGo_snd_ok env.cloneErrors _ 2 0 h2
    have hsnd : (cloneRepo env.cloneErrors
        (resolveProjectPath env.cwd o.baseDir o.projectName) 3).2 =
        some (Except.ok true) := by
      unfold cloneRepo
      rw [s1, s2, s3]
    refine ⟨hsnd, fun hins => ?_⟩
    rw [runAction_proceed env o hv hr,
      runPostReconcile_ok env o _ hsnd hpm]
    simp [hins]

/-- An environment whose first two clone attempts fail and whose third
succeeds, over an existing empty target. -/
def envFlakyClone : Env :=
  { envEmptyDeclined with cloneErrors := fun i => if i < 2 then some (i + 10) else none }

/-- C1 witness: the theorem applied to the concrete two-failures-then-
success environment; the fetch reports success and the run exits 0. -/
theorem claim_C1_witness :
    (cloneRepo envFlakyClone.cloneErrors
      (resolveProjectPath envFlakyClone.cwd optsNoForce.baseDir optsNoForce.projectName) 3).2 =
      some (Except.ok true) ∧
    (runAction envFlakyClone optsNoForce).exitCode = 0 := by
  have h := (claim_C1 envFlakyClone optsNoForce (by decide) (by decide)).2.2
    10 11 (by decide) (by decide) (by decide)
  exact ⟨h.1, h.2 (by decide)⟩

/-- C8 (confirmed): after a successful fetch, for every combination of the
git and package-manager options, a dependency-install failure makes the
run exit 1 with a final error message, while installation success makes
the run exit 0 even when version-control initialization failed, the
latter only logging a warning. -/
theorem claim_C8 (env : Env) (o : Options)
    (hv : validationPasses env o)
    (hr : (reconcile env o (resolveProjectPath env.cwd o.baseDir o.projectName)).2 =
      ReconcileStatus.proceed)
    (hc : (cloneRepo env.cloneErrors
      (resolveProjectPath env.cwd o.baseDir o.projectName) 3).2 =
      some (Except.ok true)) :
    (env.installOk = false → (runAction env o).exitCode = 1 ∧
      Event.logError "Project setup incomplete due to dependency installation failure." ∈
        (runAction env o).events) ∧
    (env.installOk = true → (runAction env o).exitCode = 0) ∧
    (o.git = true → env.gitInitOk = false →
      Event.logWarn "Git initialization failed. You may need to initialize git manually." ∈
        (runAction env o).events) := by
  have hpm := (validationPasses_parts env o hv).2.1
  rw [runAction_proceed env o hv hr, runPostReconcile_ok env o _ hc hpm]
  refine ⟨fun hins => ?_, fun hins => ?_, fun hg hgi => ?_⟩
  · simp [hins]
  · simp [hins]
  · simp [hg, hgi, initGitRepo]

/-- An environment over an existing empty target whose git initialization
fails but whose other operations succeed. -/
def envGitFails : Env :=
  { envEmptyDeclined with gitInitOk := false }

/-- C8 witness: the theorem applied to a concrete run whose git
initialization fails; the run still exits 0 and logs the warning. -/
theorem claim_C8_witness :
    (runAction envGitFails optsNoForce).exitCode = 0 ∧
    Event.logWarn "Git initialization failed. You may need to initialize git manually." ∈
      (runAction envGitFails optsNoForce).events := by
  have h := claim_C8 envGitFails optsNoForce (by decide) (by decide) (by decide)
  exact ⟨h.2.1 (by decide), h.2.2 (by decide) (by decide)⟩

/-- C10 witness: the theorem applied to an environment whose target exists
but is not listable (a regular file in place of the directory). -/
theorem claim_C10_witness :
    (runAction
      { envNonEmptyDeclined with listing := fun _ => none }
      optsNoForce).exitCode = 1 := by
  have h := (claim_C10 { envNonEmptyDeclined with listing := fun _ => none } optsNoForce).2
    (by decide) (by decide) (by decide) (by decide)
  exact h.1


theorem splitSlash_ne_nil (l : List Char) : splitSlash l ≠ [] := by
  induction l with
  | nil => simp [splitSlash]
  | cons c cs ih =>
    simp only [splitSlash]
    by_cases h : c = '/'
    · simp [h]
    · simp only [if_neg h]
      cases hs : splitSlash cs with
      | nil => simp
      | cons s ss => simp

theorem splitSlash_no_slash (l : List Char) (h : '/' ∉ l) : splitSlash l = [l] := by
  induction l with
  | nil => rfl
  | cons c cs ih =>
    have hc : c ≠ '/' := fun hh => h (by rw [hh]; exact List.mem_cons_self _ _)
    have hcs : '/' ∉ cs := fun hh => h (List.mem_cons_of_mem _ hh)
    simp [splitSlash, if_neg hc, ih hcs]

theorem splitSlash_append (a b : List Char) :
    splitSlash (a ++ '/' :: b) = splitSlash a ++ splitSlash b := by
  induction a with
  | nil => simp [splitSlash]
  | cons c cs ih =>
    simp only [List.cons_append, splitSlash, List.append_eq]
    rw [ih]
    by_cases h : c = '/'
    · simp [h]
    · simp only [if_neg h]
      cases hs : splitSlash cs with
      | nil => exact absurd hs (splitSlash_ne_nil cs)
      | cons s ss => simp

theorem segsOf_append_seg (p n : String) (h1 : '/' ∉ n.data) (h2 : n.data ≠ []) :
    segsOf (p ++ "/" ++ n) = segsOf p ++ [n.data] := by
  unfold segsOf
  have hd : (p ++ "/" ++ n).data = p.data ++ '/' :: n.data := by
    rw [String.data_append, String.data_append]
    simp
  rw [hd, splitSlash_append, splitSlash_no_slash n.data h1, List.filter_append]
  simp [h2]

theorem normalizeSegs_append_single (xs : List (List Char)) (seg : List Char)
    (h1 : seg ≠ ['.']) (h2 : seg ≠ ['.', '.']) :
    normalizeSegs (xs ++ [seg]) = normalizeSegs xs ++ [seg] := by
  unfold normalizeSegs
  rw [List.foldl_append]
  simp [h1, h2]

theorem nameRegex_facts (n : String) (h : testNameRegex n = true) :
    '/' ∉ n.data ∧ n.data ≠ [] ∧ n.data ≠ ['.'] ∧ n.data ≠ ['.', '.'] ∧
      isAbsolutePath n = false := by
  obtain ⟨hne, hall⟩ := (testNameRegex_iff n).mp h
  have hslash : '/' ∉ n.data := fun hm => by
    have := hall '/' hm
    exact absurd this (by decide)
  refine ⟨hslash, hne, ?_, ?_, ?_⟩
  · intro hh
    have := hall '.' (by rw [hh]; exact List.mem_cons_self _ _)
    exact absurd this (by decide)
  · intro hh
    have := hall '.' (by rw [hh]; exact List.mem_cons_self _ _)
    exact absurd this (by decide)
  · unfold isAbsolutePath
    cases hd : n.data with
    | nil => rfl
    | cons c cs =>
      have hc := hall c (by rw [hd]; exact List.mem_cons_self _ _)
      have : c ≠ '/' := fun hh => by rw [hh] at hc; exact absurd hc (by decide)
      simp [this]

theorem pathResolve_eq (cwd base n : String) (h : testNameRegex n = true) :
    pathResolve cwd base n = joinedString (resolvedBaseSegs cwd base ++ [n.data]) := by
  obtain ⟨hslash, hne, hdot, hdotdot, _⟩ := nameRegex_facts n h
  unfold pathResolve resolvedBaseSegs
  cases hab : isAbsolutePath base <;> simp only [hab] <;>
    simp only [Bool.false_eq_true, Bool.true_eq_false, if_true, if_false,
      ite_true, ite_false, reduceIte] <;>
    rw [segsOf_append_seg _ n hslash hne,
      normalizeSegs_append_single _ _ hdot hdotdot]

/-- C9 (confirmed): a project name accepted by validation contains no path
separator, hence is never an absolute path; the absolute-name-verbatim
branch of resolveProjectPath is unreachable and the resolved project path
is the resolved base directory joined with the project name as a final
segment. -/
theorem claim_C9 (cwd baseDir name : String) (h : testNameRegex name = true) :
    isAbsolutePath name = false ∧
    resolveProjectPath cwd baseDir name = pathResolve cwd baseDir name ∧
    pathResolve cwd baseDir name =
      joinedString (resolvedBaseSegs cwd baseDir ++ [name.data]) := by
  obtain ⟨_, _, _, _, habs⟩ := nameRegex_facts name h
  refine ⟨habs, ?_, pathResolve_eq cwd baseDir name h⟩
  unfold resolveProjectPath
  rw [habs]
  simp

/-- C9 witness: the theorem applied to the concrete validated name "app"
under base directory "/base"; the resolution is the joined path. -/
theorem claim_C9_witness :
    testNameRegex "app" = true ∧
    (isAbsolutePath "app" = false ∧
      resolveProjectPath "/home" "/base" "app" = pathResolve "/home" "/base" "app" ∧
      pathResolve "/home" "/base" "app" =
        joinedString (resolvedBaseSegs "/home" "/base" ++ ["app".data])) :=
  ⟨by decide, claim_C9 "/home" "/base" "app" (by decide)⟩

end NextBoil
